import Mathlib

/-!
# USA presence map: the aggregation loop, the colour table and the coordinate lookup

A shallow embedding of `script.js`.  The script is browser JavaScript, so the
embedding carries the part of the JavaScript object model the code relies on:

* `stateInfo` and `lookup` are object literals, so reading `obj[key]` first
  consults the own properties and then `Object.prototype`;
* the row objects produced by the CSV parser are ordinary objects too, so a
  field that a row does not have is read from `Object.prototype`;
* a missing property reads as `undefined`, and reading a property of
  `undefined` raises a `TypeError`.
-/

namespace USAMap

/-! ## Values -/

/-- A row field as JavaScript sees it: `none` is `undefined` (no such
property), `some s` is the string `s`.  The CSV parser only produces strings. -/
abbrev Val := Option String

/-- JavaScript truthiness of an undefined-or-string value: only a non-empty
string is truthy. -/
def truthy : Val → Bool
  | some s => s != ""
  | none => false

/-- The expression `v || d` for an undefined-or-string `v` and a string `d`. -/
def orDefault (v : Val) (d : String) : String :=
  match v with
  | some s => if s = "" then d else s
  | none => d

/-- One parsed CSV record: the own properties of the row object. -/
structure Row where
  state : Val
  city : Val
  presence : Val
  contact : Val
deriving DecidableEq, Repr

/-- An element of a `cities` array: the object literal
`{city: row.city, presence: row.presence, contact: row.contact}`. -/
structure City where
  city : Val
  presence : Val
  contact : Val
deriving DecidableEq, Repr

/-- A value stored under a state name in `stateInfo`: the object literal
`{presence, contact, cities}`. -/
structure Summary where
  presence : Val
  contact : Val
  cities : List City
deriving DecidableEq, Repr

/-- The only error the loop can raise. -/
inductive JSError
  | typeError
deriving DecidableEq, Repr

/-- The part of the JavaScript realm that the loop reads and writes.

* `stateInfo`: the own properties of the object `stateInfo`, in creation order;
* `protoPresence`, `protoContact`: the properties `presence` and `contact` of
  `Object.prototype` (`none` while they have never been assigned);
* `fnPresence`, `fnContact`: own properties `presence` and `contact` that a
  built-in function object reachable as `Object.prototype[name]` has acquired,
  keyed by `name`. -/
structure Realm where
  stateInfo : List (String × Summary)
  protoPresence : Val
  protoContact : Val
  fnPresence : List (String × Val)
  fnContact : List (String × Val)
deriving DecidableEq, Repr

/-- The realm when the loop starts: `const stateInfo = {}` and an untouched
`Object.prototype`. -/
def Realm.initial : Realm := ⟨[], none, none, [], []⟩

/-! ## Property lookup -/

/-- Own-property lookup in an association list. -/
def lookupKey {α : Type} : List (String × α) → String → Option α
  | [], _ => none
  | (k, v) :: rest, key => if k = key then some v else lookupKey rest key

/-- Replace the value stored under `key`, when there is one (the keys of an
object are distinct). -/
def updateKey {α : Type} (f : α → α) (key : String) : List (String × α) → List (String × α)
  | [] => []
  | (k, v) :: rest => if k = key then (k, f v) :: updateKey f key rest else (k, v) :: updateKey f key rest

/-- Assign an own property in an association list (overwrite or add). -/
def assignKey {α : Type} (key : String) (v : α) : List (String × α) → List (String × α)
  | [] => [(key, v)]
  | (k, w) :: rest => if k = key then (k, v) :: rest else (k, w) :: assignKey key v rest

/-- The names under which `Object.prototype` holds a built-in function in a
browser (ECMAScript standard plus its Annex B). -/
def builtinFnNames : List String :=
  ["constructor", "__defineGetter__", "__defineSetter__", "hasOwnProperty",
   "__lookupGetter__", "__lookupSetter__", "isPrototypeOf", "propertyIsEnumerable",
   "toString", "valueOf", "toLocaleString"]

/-- What reading a property of an object literal can yield: `own v` is an own
property of the literal, the other cases come from `Object.prototype`
(`builtinFn name` is the built-in function `Object.prototype[name]`,
`objectProto` is `Object.prototype` itself, `str s` a string). -/
inductive Fetched (α : Type)
  | undefined
  | own (v : α)
  | builtinFn (name : String)
  | objectProto
  | str (s : String)
deriving DecidableEq, Repr

/-- Lift an undefined-or-string value. -/
def Fetched.ofVal {α : Type} : Val → Fetched α
  | some s => Fetched.str s
  | none => Fetched.undefined

/-- Truthiness: objects and functions are truthy, a string when non-empty. -/
def Fetched.truthy {α : Type} : Fetched α → Bool
  | Fetched.undefined => false
  | Fetched.own _ => true
  | Fetched.builtinFn _ => true
  | Fetched.objectProto => true
  | Fetched.str s => s != ""

/-- Reading property `key` through an ordinary object that has no own
property of that name: the value comes from `Object.prototype`.  The accessor
`__proto__` returns the prototype of the receiver, `Object.prototype` itself. -/
def inheritedGet {α : Type} (r : Realm) (key : String) : Fetched α :=
  if key ∈ builtinFnNames then Fetched.builtinFn key
  else if key = "__proto__" then Fetched.objectProto
  else if key = "presence" then Fetched.ofVal r.protoPresence
  else if key = "contact" then Fetched.ofVal r.protoContact
  else Fetched.undefined

/-- The expression `obj[key]` for an object literal with own properties
`props`. -/
def objGet {α : Type} (props : List (String × α)) (r : Realm) (key : String) : Fetched α :=
  match lookupKey props key with
  | some v => Fetched.own v
  | none => inheritedGet r key

/-- The expression `stateInfo[key]`. -/
def stateInfoGet (r : Realm) (key : String) : Fetched Summary :=
  objGet r.stateInfo r key

/-- The expression `row.state`.  `Object.prototype` has no property `state`
and the loop never assigns one, so only the own property counts. -/
def rowState (_r : Realm) (row : Row) : Val := row.state

/-- The expression `row.city` (as for `row.state`). -/
def rowCity (_r : Realm) (row : Row) : Val := row.city

/-- The expression `row.presence`: the own property, else the property of
`Object.prototype`. -/
def rowPresence (r : Realm) (row : Row) : Val :=
  match row.presence with
  | some s => some s
  | none => r.protoPresence

/-- The expression `row.contact`: the own property, else the property of
`Object.prototype`. -/
def rowContact (r : Realm) (row : Row) : Val :=
  match row.contact with
  | some s => some s
  | none => r.protoContact

/-! ## The aggregation loop -/

/-- Lines 26 to 32: `stateInfo[key] = {presence: row.presence || "none",
contact: row.contact || "", cities: []}`.  It only runs when `stateInfo[key]`
is falsy, so `key` is neither an own property nor `__proto__`, and the
assignment adds an own property. -/
def createSummary (r : Realm) (key : String) (row : Row) : Realm :=
  { r with
    stateInfo := r.stateInfo ++
      [(key, ⟨some (orDefault (rowPresence r row) "none"),
              some (orDefault (rowContact r row) ""), []⟩)] }

/-- Lines 34 to 38: `stateInfo[key].cities.push(c)`.  Only a summary object has
a `cities` array; on a built-in function, on `Object.prototype` and on a
string the property is `undefined` and the call raises. -/
def pushCity (r : Realm) (key : String) (c : City) : Except JSError Realm :=
  match stateInfoGet r key with
  | Fetched.own _ =>
      Except.ok { r with
        stateInfo := updateKey (fun s => { s with cities := s.cities ++ [c] }) key r.stateInfo }
  | _ => Except.error JSError.typeError

/-- The expression `stateInfo[key].presence`.  A built-in function reads its
own property when it has acquired one, else the property of
`Object.prototype`; so do `Object.prototype` itself and a string.  The read is
only reached after line 32, where `stateInfo[key]` is truthy, so the first
branch is never taken there (`processRow_error_iff`). -/
def getPresence (r : Realm) (key : String) : Except JSError Val :=
  match stateInfoGet r key with
  | Fetched.undefined => Except.error JSError.typeError
  | Fetched.own s => Except.ok s.presence
  | Fetched.builtinFn name =>
      (match lookupKey r.fnPresence name with
       | some v => Except.ok v
       | none => Except.ok r.protoPresence)
  | Fetched.objectProto => Except.ok r.protoPresence
  | Fetched.str _ => Except.ok r.protoPresence

/-- The assignment `stateInfo[key].presence = v`.  On a string the assignment
is silently dropped (the script is not in strict mode). -/
def setPresence (r : Realm) (key : String) (v : Val) : Except JSError Realm :=
  match stateInfoGet r key with
  | Fetched.undefined => Except.error JSError.typeError
  | Fetched.own _ =>
      Except.ok { r with
        stateInfo := updateKey (fun s => { s with presence := v }) key r.stateInfo }
  | Fetched.builtinFn name => Except.ok { r with fnPresence := assignKey name v r.fnPresence }
  | Fetched.objectProto => Except.ok { r with protoPresence := v }
  | Fetched.str _ => Except.ok r

/-- The assignment `stateInfo[key].contact = v`. -/
def setContact (r : Realm) (key : String) (v : Val) : Except JSError Realm :=
  match stateInfoGet r key with
  | Fetched.undefined => Except.error JSError.typeError
  | Fetched.own _ =>
      Except.ok { r with
        stateInfo := updateKey (fun s => { s with contact := v }) key r.stateInfo }
  | Fetched.builtinFn name => Except.ok { r with fnContact := assignKey name v r.fnContact }
  | Fetched.objectProto => Except.ok { r with protoContact := v }
  | Fetched.str _ => Except.ok r

/-- Lines 41 to 45, the condition of the `if`, with `p` the value of
`row.presence` and `c` the value of `stateInfo[row.state].presence`. -/
def overwriteCond (p c : Val) : Bool :=
  (p == some "direct" && c != some "direct") ||
  (p == some "distributor" && [some "importer", some "none"].contains c) ||
  (p == some "importer" && c == some "none")

/-- The body of the `forEach` callback of lines 24 to 49, for one row.  The
operands of the condition have no effect and cannot raise, so they are read
once, before the condition is evaluated. -/
def processRow (r : Realm) (row : Row) : Except JSError Realm :=
  match rowState r row with
  | none => Except.ok r
  | some key =>
    if key = "" then Except.ok r
    else
      let r1 := if (stateInfoGet r key).truthy then r else createSummary r key row
      let pushed :=
        if truthy (rowCity r1 row) then
          pushCity r1 key ⟨rowCity r1 row, rowPresence r1 row, rowContact r1 row⟩
        else Except.ok r1
      match pushed with
      | Except.error e => Except.error e
      | Except.ok r2 =>
        match getPresence r2 key with
        | Except.error e => Except.error e
        | Except.ok cur =>
          if overwriteCond (rowPresence r2 row) cur then
            match setPresence r2 key (rowPresence r2 row) with
            | Except.error e => Except.error e
            | Except.ok r3 => setContact r3 key (rowContact r3 row)
          else Except.ok r2

/-- The `forEach` over the rows, from a given realm: rows are processed in
order and an error ends the loop. -/
def runRows : Realm → List Row → Except JSError Realm
  | r, [] => Except.ok r
  | r, row :: rest =>
    match processRow r row with
    | Except.error e => Except.error e
    | Except.ok r1 => runRows r1 rest

/-- Function `loadDataAndMap`, lines 21 to 49: the loop over the parsed rows,
started on `stateInfo = {}`.  The result is the realm with the finished
`stateInfo`, or the error that ended the loop. -/
def aggregate (rows : List Row) : Except JSError Realm :=
  runRows Realm.initial rows

/-! ## Colour table -/

/-- Function `getStateColor`: a `switch` with strict equality. -/
def getStateColor (presence : Val) : String :=
  match presence with
  | some "direct" => "#3CB371"
  | some "distributor" => "#FFA500"
  | some "importer" => "#4682B4"
  | _ => "#dddddd"

/-! ## Coordinate lookup -/

/-- Values that `cityLatLon` can return or meet on the way.  A coordinate
pair is the array literal `[lat, lon]`, kept in units of one ten-thousandth of
a degree (the literals have four decimals); `hostObject d` is any other
object of the host, described by `d`. -/
inductive JSValue
  | undefined
  | null
  | string (s : String)
  | number (n : Int)
  | coords (lat lon : Int)
  | builtinFn (name : String)
  | objectProto
  | hostObject (d : String)
deriving DecidableEq, Repr

/-- JavaScript truthiness. -/
def JSValue.truthy : JSValue → Bool
  | JSValue.undefined => false
  | JSValue.null => false
  | JSValue.string s => s != ""
  | JSValue.number n => n != 0
  | JSValue.coords _ _ => true
  | JSValue.builtinFn _ => true
  | JSValue.objectProto => true
  | JSValue.hostObject _ => true

/-- Property reads on values that the script does not define: `fnGet name key`
is `Object.prototype[name][key]`, a property of a built-in function, and
`strGet s key` is `s[key]` for a string `s`.  What they answer belongs to the
browser, so it is a parameter. -/
structure Host where
  fnGet : String → String → Except JSError JSValue
  strGet : String → String → Except JSError JSValue

/-- The object literal `lookup` of lines 109 to 126. -/
def lookup : List (String × List (String × Int × Int)) :=
  [("California",
      [("Los Angeles", 340522, -1182437),
       ("San Diego", 327157, -1171611),
       ("San Francisco", 377749, -1224194)]),
   ("New York",
      [("New York", 407128, -740060),
       ("Buffalo", 428864, -788784),
       ("Rochester", 431566, -776088)]),
   ("Texas",
      [("Houston", 297604, -953698),
       ("San Antonio", 294241, -984936),
       ("Dallas", 327767, -967970)])]

/-- The conditional `v ? v : null`. -/
def orNull (v : JSValue) : JSValue :=
  if v.truthy then v else JSValue.null

/-- The property read `Object.prototype[key]` on `Object.prototype` itself:
as `inheritedGet`, except that its `__proto__` is `null`. -/
def objectProtoGet (r : Realm) (key : String) : JSValue :=
  if key ∈ builtinFnNames then JSValue.builtinFn key
  else if key = "__proto__" then JSValue.null
  else if key = "presence" then
    (match r.protoPresence with
     | some s => JSValue.string s
     | none => JSValue.undefined)
  else if key = "contact" then
    (match r.protoContact with
     | some s => JSValue.string s
     | none => JSValue.undefined)
  else JSValue.undefined

/-- Function `cityLatLon`, line 127:
`lookup[state] && lookup[state][city] ? lookup[state][city] : null`. -/
def cityLatLon (r : Realm) (host : Host) (state city : String) : Except JSError JSValue :=
  match objGet lookup r state with
  | Fetched.undefined => Except.ok JSValue.null
  | Fetched.own table =>
      (match objGet table r city with
       | Fetched.undefined => Except.ok JSValue.null
       | Fetched.own (lat, lon) => Except.ok (JSValue.coords lat lon)
       | Fetched.builtinFn name => Except.ok (JSValue.builtinFn name)
       | Fetched.objectProto => Except.ok JSValue.objectProto
       | Fetched.str s => Except.ok (orNull (JSValue.string s)))
  | Fetched.builtinFn name =>
      (match host.fnGet name city with
       | Except.error e => Except.error e
       | Except.ok v => Except.ok (orNull v))
  | Fetched.objectProto => Except.ok (orNull (objectProtoGet r city))
  | Fetched.str s =>
      if s = "" then Except.ok JSValue.null
      else
        (match host.strGet s city with
         | Except.error e => Except.error e
         | Except.ok v => Except.ok (orNull v))

/-! ## Notions of the specification

The order on presence values, and the selections of rows and of table entries
that the properties are stated with. -/

/-- The level of a presence value under `none < importer < distributor <
direct`; an unrecognized or missing value counts as `none`. -/
def presenceLevel : Val → Nat
  | some "direct" => 3
  | some "distributor" => 2
  | some "importer" => 1
  | _ => 0

/-- The four named presence values. -/
def namedLevels : List String := ["none", "importer", "distributor", "direct"]

/-- The rows of a sequence whose state is `s`. -/
def rowsOf (s : String) (rows : List Row) : List Row :=
  rows.filter (fun row => row.state == some s)

/-- The highest level among the presence fields of a list of rows. -/
def maxLevel : List Row → Nat
  | [] => 0
  | row :: rest => max (presenceLevel row.presence) (maxLevel rest)

/-- The entry of `cities` that the specification gives for a row: the city,
presence and contact fields of the row itself. -/
def cityOfRow (row : Row) : City := ⟨row.city, row.presence, row.contact⟩

/-- The rows of a list that have a city. -/
def cityRows (rows : List Row) : List Row :=
  rows.filter (fun row => truthy row.city)

/-- The first row of a list whose presence field has level `n`. -/
def firstAtLevel (n : Nat) (rows : List Row) : Option Row :=
  rows.find? (fun row => presenceLevel row.presence == n)

/-- A presence field that is absent, empty or one of the four names. -/
def recognized (p : Val) : Prop :=
  p = none ∨ p = some "" ∨ ∃ n, n ∈ namedLevels ∧ p = some n

/-- The nine (state, city) pairs of the table. -/
def tablePairs : List (String × String) :=
  [("California", "Los Angeles"), ("California", "San Diego"), ("California", "San Francisco"),
   ("New York", "New York"), ("New York", "Buffalo"), ("New York", "Rochester"),
   ("Texas", "Houston"), ("Texas", "San Antonio"), ("Texas", "Dallas")]

/-! ## One state on its own

What one row does to a summary, and the summary that the rows of a single
state give when nothing interferes: every read of a row field yields the
field of the row, and the state name is an ordinary key. -/

/-- The summary that a row leaves under its state when the state already has
one: the city is appended when the row has one, and presence and contact are
replaced when the condition of the `if` holds. -/
def stepSummary (r : Realm) (row : Row) (sum : Summary) : Summary :=
  let cities := if truthy (rowCity r row) then
      sum.cities ++ [⟨rowCity r row, rowPresence r row, rowContact r row⟩]
    else sum.cities
  if overwriteCond (rowPresence r row) sum.presence then
    ⟨rowPresence r row, rowContact r row, cities⟩
  else ⟨sum.presence, sum.contact, cities⟩

/-- A state name that `Object.prototype` does not answer for. -/
def plainState (k : String) : Prop := k ∉ builtinFnNames ∧ k ≠ "__proto__"

/-- Every state of the rows is an ordinary key. -/
def plainRows (rows : List Row) : Prop :=
  ∀ row, row ∈ rows → ∀ k, row.state = some k → plainState k

/-- The prototype carries neither `presence` nor `contact`. -/
def cleanRealm (r : Realm) : Prop := r.protoPresence = none ∧ r.protoContact = none

/-- The object literal of lines 27 to 31 for a row read field by field. -/
def initSummary (row : Row) : Summary :=
  ⟨some (orDefault row.presence "none"), some (orDefault row.contact ""), []⟩

/-- Lines 33 to 48 on a summary, for a row read field by field. -/
def stepPlain (sum : Summary) (row : Row) : Summary :=
  let cities := if truthy row.city then sum.cities ++ [cityOfRow row] else sum.cities
  if overwriteCond row.presence sum.presence then ⟨row.presence, row.contact, cities⟩
  else ⟨sum.presence, sum.contact, cities⟩

/-- The summary of one state after its rows, from the summary it had before
(`none` when it had none). -/
def foldSummary : Option Summary → List Row → Option Summary
  | acc, [] => acc
  | none, row :: rest => foldSummary (some (stepPlain (initSummary row) row)) rest
  | some sum, row :: rest => foldSummary (some (stepPlain sum row)) rest

/-- What ties a summary to the rows of its state seen so far: none of them
would pass the condition of the `if` again, and the contact is the one of the
first of them at the level of the presence (absent counted as empty). -/
def contactInv (seen : List Row) (sum : Summary) : Prop :=
  (∀ row, row ∈ seen → overwriteCond row.presence sum.presence = false) ∧
  ∃ row0, firstAtLevel (presenceLevel sum.presence) seen = some row0 ∧
    orDefault row0.contact "" = orDefault sum.contact ""

/-! ## Association lists -/

theorem lookupKey_updateKey_same {α : Type} (f : α → α) (key : String) (l : List (String × α)) :
    lookupKey (updateKey f key l) key = (lookupKey l key).map f := by
  induction l with
  | nil => rfl
  | cons hd tl ih =>
    obtain ⟨k, v⟩ := hd
    by_cases h : k = key
    · simp [updateKey, lookupKey, h]
    · simp [updateKey, lookupKey, h, ih]

theorem lookupKey_updateKey_ne {α : Type} (f : α → α) (key k : String) (l : List (String × α))
    (hne : k ≠ key) : lookupKey (updateKey f key l) k = lookupKey l k := by
  induction l with
  | nil => rfl
  | cons hd tl ih =>
    obtain ⟨k0, v⟩ := hd
    by_cases h : k0 = key
    · have h2 : ¬ k0 = k := fun e => hne (e ▸ h)
      simp only [updateKey, h, if_true, lookupKey]
      rw [if_neg (h ▸ h2), if_neg (h ▸ h2), ih]
    · simp only [updateKey, h, if_false, lookupKey]
      by_cases h3 : k0 = k
      · simp [h3]
      · simp [h3, ih]

/-! ## One row on a state that already has a summary -/

theorem stateInfoGet_own (r : Realm) (key : String) (sum : Summary)
    (hown : lookupKey r.stateInfo key = some sum) : stateInfoGet r key = Fetched.own sum := by
  simp [stateInfoGet, objGet, hown]

theorem pushCity_own (r : Realm) (key : String) (sum : Summary) (c : City)
    (hown : lookupKey r.stateInfo key = some sum) :
    pushCity r key c = Except.ok { r with
      stateInfo := updateKey (fun s => { s with cities := s.cities ++ [c] }) key r.stateInfo } := by
  simp [pushCity, stateInfoGet_own r key sum hown]

theorem getPresence_own (r : Realm) (key : String) (sum : Summary)
    (hown : lookupKey r.stateInfo key = some sum) : getPresence r key = Except.ok sum.presence := by
  simp [getPresence, stateInfoGet_own r key sum hown]

theorem setPresence_own (r : Realm) (key : String) (sum : Summary) (v : Val)
    (hown : lookupKey r.stateInfo key = some sum) :
    setPresence r key v = Except.ok { r with
      stateInfo := updateKey (fun s => { s with presence := v }) key r.stateInfo } := by
  simp [setPresence, stateInfoGet_own r key sum hown]

theorem setContact_own (r : Realm) (key : String) (sum : Summary) (v : Val)
    (hown : lookupKey r.stateInfo key = some sum) :
    setContact r key v = Except.ok { r with
      stateInfo := updateKey (fun s => { s with contact := v }) key r.stateInfo } := by
  simp [setContact, stateInfoGet_own r key sum hown]

/-- A row whose state already has a summary never raises; it replaces that
summary by `stepSummary` and touches nothing else in the realm. -/
theorem processRow_own (r : Realm) (row : Row) (key : String) (sum : Summary)
    (hstate : rowState r row = some key) (hkey : key ≠ "")
    (hown : lookupKey r.stateInfo key = some sum) :
    ∃ r1, processRow r row = Except.ok r1 ∧
      lookupKey r1.stateInfo key = some (stepSummary r row sum) ∧
      (∀ k, k ≠ key → lookupKey r1.stateInfo k = lookupKey r.stateInfo k) ∧
      r1.protoPresence = r.protoPresence ∧ r1.protoContact = r.protoContact ∧
      r1.fnPresence = r.fnPresence ∧ r1.fnContact = r.fnContact := by
  have hget := stateInfoGet_own r key sum hown
  by_cases hcity : truthy (rowCity r row) = true
  · -- the row has a city
    let c : City := ⟨rowCity r row, rowPresence r row, rowContact r row⟩
    let r2 : Realm := { r with
      stateInfo := updateKey (fun s => { s with cities := s.cities ++ [c] }) key r.stateInfo }
    have hown2 : lookupKey r2.stateInfo key = some { sum with cities := sum.cities ++ [c] } := by
      simp [r2, lookupKey_updateKey_same, hown]
    by_cases hcond : overwriteCond (rowPresence r row) sum.presence = true
    · let r3 : Realm := { r2 with
        stateInfo := updateKey (fun s => { s with presence := rowPresence r row }) key r2.stateInfo }
      have hown3 : lookupKey r3.stateInfo key =
          some { presence := rowPresence r row, contact := sum.contact, cities := sum.cities ++ [c] } := by
        simp [r3, lookupKey_updateKey_same, hown2]
      refine ⟨{ r3 with
        stateInfo := updateKey (fun s => { s with contact := rowContact r row }) key r3.stateInfo }, ?_, ?_, ?_, rfl, rfl, rfl, rfl⟩
      · have e1 := pushCity_own r key sum c hown
        have e2 := getPresence_own r2 key _ hown2
        have e3 := setPresence_own r2 key _ (rowPresence r row) hown2
        have e4 := setContact_own r3 key _ (rowContact r row) hown3
        simp only [processRow, hstate, hkey, if_false, hget, Fetched.truthy, if_true]
        simp only [hcity, if_true]
        rw [e1]
        simp only []
        rw [e2]
        simp only [rowPresence, rowContact] at hcond e3 e4 ⊢
        simp only [r2] at hcond e3 e4 ⊢
        simp only [hcond, if_true]
        rw [e3]
        simp only []
        exact e4
      · simp [lookupKey_updateKey_same, hown3, stepSummary, hcity, hcond, c]
      · intro k hk
        simp [r3, r2, lookupKey_updateKey_ne _ _ _ _ hk]
    · refine ⟨r2, ?_, ?_, ?_, rfl, rfl, rfl, rfl⟩
      · have e1 := pushCity_own r key sum c hown
        have e2 := getPresence_own r2 key _ hown2
        simp only [processRow, hstate, hkey, if_false, hget, Fetched.truthy, if_true]
        simp only [hcity, if_true]
        rw [e1]
        simp only []
        rw [e2]
        simp only [rowPresence, rowContact] at hcond ⊢
        simp only [r2] at hcond ⊢
        simp only [hcond]
        simp
      · simp [hown2, stepSummary, hcity, hcond, c]
      · intro k hk
        simp [r2, lookupKey_updateKey_ne _ _ _ _ hk]
  · -- the row has no city
    have hcity2 : truthy (rowCity r row) = false := by
      cases h : truthy (rowCity r row)
      · rfl
      · exact absurd h hcity
    by_cases hcond : overwriteCond (rowPresence r row) sum.presence = true
    · let r3 : Realm := { r with
        stateInfo := updateKey (fun s => { s with presence := rowPresence r row }) key r.stateInfo }
      have hown3 : lookupKey r3.stateInfo key =
          some { presence := rowPresence r row, contact := sum.contact, cities := sum.cities } := by
        simp [r3, lookupKey_updateKey_same, hown]
      refine ⟨{ r3 with
        stateInfo := updateKey (fun s => { s with contact := rowContact r row }) key r3.stateInfo }, ?_, ?_, ?_, rfl, rfl, rfl, rfl⟩
      · have e2 := getPresence_own r key _ hown
        have e3 := setPresence_own r key _ (rowPresence r row) hown
        have e4 := setContact_own r3 key _ (rowContact r row) hown3
        simp only [processRow, hstate, hkey, if_false, hget, Fetched.truthy, if_true]
        simp only [hcity2]
        simp only [Bool.false_eq_true, if_false]
        rw [e2]
        simp only [hcond, if_true]
        rw [e3]
        simp only []
        simp only [rowPresence, rowContact] at e4 ⊢
        simp only [r3] at e4 ⊢
        exact e4
      · simp [lookupKey_updateKey_same, hown3, stepSummary, hcity2, hcond]
      · intro k hk
        simp [r3, lookupKey_updateKey_ne _ _ _ _ hk]
    · refine ⟨r, ?_, ?_, ?_, rfl, rfl, rfl, rfl⟩
      · have e2 := getPresence_own r key _ hown
        simp only [processRow, hstate, hkey, if_false, hget, Fetched.truthy, if_true]
        simp only [hcity2]
        simp only [Bool.false_eq_true, if_false]
        rw [e2]
        simp only [hcond]
        simp
      · simp [hown, stepSummary, hcity2, hcond]
      · intro k _
        rfl

/-! ## The order and the condition of the `if` -/

theorem presenceLevel_cases (p : Val) :
    (p = some "direct" ∧ presenceLevel p = 3) ∨
    (p = some "distributor" ∧ presenceLevel p = 2) ∨
    (p = some "importer" ∧ presenceLevel p = 1) ∨
    (p ≠ some "direct" ∧ p ≠ some "distributor" ∧ p ≠ some "importer" ∧ presenceLevel p = 0) := by
  by_cases h1 : p = some "direct"
  · exact Or.inl ⟨h1, by rw [h1]; rfl⟩
  · by_cases h2 : p = some "distributor"
    · exact Or.inr (Or.inl ⟨h2, by rw [h2]; rfl⟩)
    · by_cases h3 : p = some "importer"
      · exact Or.inr (Or.inr (Or.inl ⟨h3, by rw [h3]; rfl⟩))
      · refine Or.inr (Or.inr (Or.inr ⟨h1, h2, h3, ?_⟩))
        unfold presenceLevel
        split <;> simp_all

/-- A row whose level is not above the current one never satisfies the
condition, whatever the two strings are. -/
theorem overwriteCond_false_of_le (p c : Val) (hle : presenceLevel p ≤ presenceLevel c) :
    overwriteCond p c = false := by
  rcases presenceLevel_cases p with ⟨hp, lp⟩ | ⟨hp, lp⟩ | ⟨hp, lp⟩ | ⟨hp1, hp2, hp3, _⟩
  · rcases presenceLevel_cases c with ⟨hc, _⟩ | ⟨_, lc⟩ | ⟨_, lc⟩ | ⟨_, _, _, lc⟩
    · subst hp; subst hc; decide
    all_goals omega
  · rcases presenceLevel_cases c with ⟨hc, _⟩ | ⟨hc, _⟩ | ⟨_, lc⟩ | ⟨_, _, _, lc⟩
    · subst hp; subst hc; decide
    · subst hp; subst hc; decide
    all_goals omega
  · rcases presenceLevel_cases c with ⟨hc, _⟩ | ⟨hc, _⟩ | ⟨hc, _⟩ | ⟨_, _, _, lc⟩
    · subst hp; subst hc; decide
    · subst hp; subst hc; decide
    · subst hp; subst hc; decide
    · omega
  · simp [overwriteCond, hp1, hp2, hp3]

/-- The condition of the `if` in terms of the values read.  On a state that
already has a summary whose presence `c` is one of the four named levels, and
when the read `row.presence` yields undefined, the empty string or one of the
four named levels, the condition holds exactly when the value read is
strictly higher than `c` in `none < importer < distributor < direct`; the row
is processed without error, and the summary afterwards has the values that
`row.presence` and `row.contact` yield when the condition holds, and the
presence and contact it had otherwise.  The values read are the fields of the
row only while `Object.prototype` carries no `presence` and no `contact`. -/
theorem overwrite_iff_strictly_higher (r : Realm) (row : Row) (key : String) (sum : Summary)
    (c : String)
    (hstate : rowState r row = some key) (hkey : key ≠ "")
    (hown : lookupKey r.stateInfo key = some sum)
    (hc : sum.presence = some c) (hcn : c ∈ namedLevels)
    (hp : rowPresence r row = none ∨ rowPresence r row = some "" ∨
      ∃ n, n ∈ namedLevels ∧ rowPresence r row = some n) :
    (overwriteCond (rowPresence r row) sum.presence = true ↔
      presenceLevel sum.presence < presenceLevel (rowPresence r row)) ∧
    ∃ r1 sum1, processRow r row = Except.ok r1 ∧ lookupKey r1.stateInfo key = some sum1 ∧
      (presenceLevel sum.presence < presenceLevel (rowPresence r row) →
        sum1.presence = rowPresence r row ∧ sum1.contact = rowContact r row) ∧
      (¬ presenceLevel sum.presence < presenceLevel (rowPresence r row) →
        sum1.presence = sum.presence ∧ sum1.contact = sum.contact) := by
  have hiff : overwriteCond (rowPresence r row) sum.presence = true ↔
      presenceLevel sum.presence < presenceLevel (rowPresence r row) := by
    rw [hc]
    simp only [namedLevels, List.mem_cons, List.mem_singleton, List.not_mem_nil, or_false] at hcn hp
    rcases hcn with rfl | rfl | rfl | rfl <;>
      rcases hp with h | h | ⟨n, (rfl | rfl | rfl | rfl), h⟩ <;> rw [h] <;> decide
  refine ⟨hiff, ?_⟩
  obtain ⟨r1, hrun, hsum, _⟩ := processRow_own r row key sum hstate hkey hown
  refine ⟨r1, stepSummary r row sum, hrun, hsum, ?_, ?_⟩
  · intro hlt
    have hcond := hiff.mpr hlt
    simp [stepSummary, hcond]
  · intro hnlt
    have hcond : overwriteCond (rowPresence r row) sum.presence = false := by
      cases h : overwriteCond (rowPresence r row) sum.presence
      · rfl
      · exact absurd (hiff.mp h) hnlt
    simp [stepSummary, hcond]

/-- The condition of the `if` at a distributor row on an importer summary. -/
theorem overwrite_iff_strictly_higher_witness :
    (overwriteCond (some "distributor") (some "importer") = true ↔
      presenceLevel (some "importer") < presenceLevel (some "distributor")) ∧
    ∃ r1 sum1,
      processRow ⟨[("TX", ⟨some "importer", some "Acme", []⟩)], none, none, [], []⟩
        ⟨some "TX", none, some "distributor", some "Bolt"⟩ = Except.ok r1 ∧
      lookupKey r1.stateInfo "TX" = some sum1 ∧
      (presenceLevel (some "importer") < presenceLevel (some "distributor") →
        sum1.presence = some "distributor" ∧ sum1.contact = some "Bolt") ∧
      (¬ presenceLevel (some "importer") < presenceLevel (some "distributor") →
        sum1.presence = some "importer" ∧ sum1.contact = some "Acme") :=
  overwrite_iff_strictly_higher ⟨[("TX", ⟨some "importer", some "Acme", []⟩)], none, none, [], []⟩
    ⟨some "TX", none, some "distributor", some "Bolt"⟩ "TX" ⟨some "importer", some "Acme", []⟩
    "importer" rfl (by decide) rfl rfl (by decide)
    (Or.inr (Or.inr ⟨"distributor", by decide, rfl⟩))

/-- The frame of a row in terms of the value read.  A row with a non-empty
state whose state already has a summary, whatever the two presence strings
are: when the level of the value that `row.presence` yields is not above the
level of the current presence, the row is processed without error, the
presence and the contact of the summary are unchanged, its cities are the old
ones followed by the city of the row when the row has one, and nothing else
in the realm changes.  The value read is the field of the row only while
`Object.prototype` carries no `presence`. -/
theorem lower_or_equal_row_keeps_summary (r : Realm) (row : Row) (key : String) (sum : Summary)
    (hstate : rowState r row = some key) (hkey : key ≠ "")
    (hown : lookupKey r.stateInfo key = some sum)
    (hle : presenceLevel (rowPresence r row) ≤ presenceLevel sum.presence) :
    ∃ r1 sum1, processRow r row = Except.ok r1 ∧ lookupKey r1.stateInfo key = some sum1 ∧
      sum1.presence = sum.presence ∧ sum1.contact = sum.contact ∧
      sum1.cities = (if truthy (rowCity r row) then
          sum.cities ++ [⟨rowCity r row, rowPresence r row, rowContact r row⟩]
        else sum.cities) ∧
      (∀ k, k ≠ key → lookupKey r1.stateInfo k = lookupKey r.stateInfo k) ∧
      r1.protoPresence = r.protoPresence ∧ r1.protoContact = r.protoContact ∧
      r1.fnPresence = r.fnPresence ∧ r1.fnContact = r.fnContact := by
  obtain ⟨r1, hrun, hsum, hrest⟩ := processRow_own r row key sum hstate hkey hown
  have hcond := overwriteCond_false_of_le _ _ hle
  refine ⟨r1, stepSummary r row sum, hrun, hsum, ?_, ?_, ?_, hrest⟩
  · simp [stepSummary, hcond]
  · simp [stepSummary, hcond]
  · by_cases hcity : truthy (rowCity r row) = true
    · simp [stepSummary, hcond, hcity]
    · simp [stepSummary, hcond, hcity]

/-- The scenario of the specification: after the row `{state: TX, presence:
direct, contact: Acme}` Texas is at direct with contact Acme, and the row
`{state: TX, city: Houston, presence: importer}` leaves both as they are. -/
theorem lower_or_equal_row_keeps_summary_witness :
    processRow Realm.initial ⟨some "TX", none, some "direct", some "Acme"⟩ =
      Except.ok ⟨[("TX", ⟨some "direct", some "Acme", []⟩)], none, none, [], []⟩ ∧
    ∃ r1 sum1,
      processRow ⟨[("TX", ⟨some "direct", some "Acme", []⟩)], none, none, [], []⟩
        ⟨some "TX", some "Houston", some "importer", none⟩ = Except.ok r1 ∧
      lookupKey r1.stateInfo "TX" = some sum1 ∧
      sum1.presence = some "direct" ∧ sum1.contact = some "Acme" ∧
      sum1.cities = [⟨some "Houston", some "importer", none⟩] ∧
      (∀ k, k ≠ "TX" → lookupKey r1.stateInfo k =
        lookupKey [("TX", (⟨some "direct", some "Acme", []⟩ : Summary))] k) ∧
      r1.protoPresence = none ∧ r1.protoContact = none ∧
      r1.fnPresence = [] ∧ r1.fnContact = [] :=
  ⟨rfl,
   lower_or_equal_row_keeps_summary ⟨[("TX", ⟨some "direct", some "Acme", []⟩)], none, none, [], []⟩
    ⟨some "TX", some "Houston", some "importer", none⟩ "TX" ⟨some "direct", some "Acme", []⟩
    rfl (by decide) rfl (by decide)⟩

/-- Claim C7.  `getStateColor` is a total function: it answers `#3CB371`
exactly for `direct`, `#FFA500` exactly for `distributor`, `#4682B4` exactly
for `importer`, and `#dddddd` for every other input, among them `none`, the
empty string, an absent value and `Direct`. -/
theorem getStateColor_table (p : Val) :
    (getStateColor p = "#3CB371" ↔ p = some "direct") ∧
    (getStateColor p = "#FFA500" ↔ p = some "distributor") ∧
    (getStateColor p = "#4682B4" ↔ p = some "importer") ∧
    (getStateColor p = "#dddddd" ↔
      (p ≠ some "direct" ∧ p ≠ some "distributor" ∧ p ≠ some "importer")) ∧
    getStateColor (some "none") = "#dddddd" ∧ getStateColor (some "") = "#dddddd" ∧
    getStateColor none = "#dddddd" ∧ getStateColor (some "Direct") = "#dddddd" := by
  have hd : getStateColor (some "direct") = "#3CB371" := rfl
  have hr : getStateColor (some "distributor") = "#FFA500" := rfl
  have hi : getStateColor (some "importer") = "#4682B4" := rfl
  have hother : p ≠ some "direct" → p ≠ some "distributor" → p ≠ some "importer" →
      getStateColor p = "#dddddd" := by
    intro h1 h2 h3
    unfold getStateColor
    split <;> simp_all
  refine ⟨?_, ?_, ?_, ?_, rfl, rfl, rfl, rfl⟩
  all_goals
    by_cases h1 : p = some "direct"
    · subst h1; rw [hd]; decide
    · by_cases h2 : p = some "distributor"
      · subst h2; rw [hr]; decide
      · by_cases h3 : p = some "importer"
        · subst h3; rw [hi]; decide
        · rw [hother h1 h2 h3]; simp [h1, h2, h3]

/-! ## The keys of `stateInfo` -/

theorem keys_updateKey {α : Type} (f : α → α) (key : String) (l : List (String × α)) :
    (updateKey f key l).map Prod.fst = l.map Prod.fst := by
  induction l with
  | nil => rfl
  | cons hd tl ih =>
    obtain ⟨k, v⟩ := hd
    by_cases h : k = key
    · simp [updateKey, h, ih]
    · simp [updateKey, h, ih]

theorem keys_pushCity (r r2 : Realm) (key : String) (c : City)
    (h : pushCity r key c = Except.ok r2) :
    r2.stateInfo.map Prod.fst = r.stateInfo.map Prod.fst := by
  unfold pushCity at h
  split at h
  · injection h with h
    subst h
    exact keys_updateKey _ _ _
  · exact absurd h (by simp)

theorem keys_setPresence (r r2 : Realm) (key : String) (v : Val)
    (h : setPresence r key v = Except.ok r2) :
    r2.stateInfo.map Prod.fst = r.stateInfo.map Prod.fst := by
  unfold setPresence at h
  split at h
  · exact absurd h (by simp)
  · injection h with h; subst h; exact keys_updateKey _ _ _
  · injection h with h; subst h; rfl
  · injection h with h; subst h; rfl
  · injection h with h; subst h; rfl

theorem keys_setContact (r r2 : Realm) (key : String) (v : Val)
    (h : setContact r key v = Except.ok r2) :
    r2.stateInfo.map Prod.fst = r.stateInfo.map Prod.fst := by
  unfold setContact at h
  split at h
  · exact absurd h (by simp)
  · injection h with h; subst h; exact keys_updateKey _ _ _
  · injection h with h; subst h; rfl
  · injection h with h; subst h; rfl
  · injection h with h; subst h; rfl

/-- A row adds at most its own non-empty state to the keys of `stateInfo`. -/
theorem keys_processRow (r r1 : Realm) (row : Row) (h : processRow r row = Except.ok r1) :
    r1.stateInfo.map Prod.fst = r.stateInfo.map Prod.fst ∨
    ∃ key, row.state = some key ∧ key ≠ "" ∧
      r1.stateInfo.map Prod.fst = r.stateInfo.map Prod.fst ++ [key] := by
  unfold processRow at h
  split at h
  · injection h with h; subst h; exact Or.inl rfl
  · rename_i key hstate
    split at h
    · injection h with h; subst h; exact Or.inl rfl
    · rename_i hkey
      -- the realm after the optional creation
      have hr1 : ∀ r0 : Realm, r0 = (if (stateInfoGet r key).truthy then r else createSummary r key row) →
          r0.stateInfo.map Prod.fst = r.stateInfo.map Prod.fst ∨
          r0.stateInfo.map Prod.fst = r.stateInfo.map Prod.fst ++ [key] := by
        intro r0 e
        by_cases ht : (stateInfoGet r key).truthy = true
        · rw [if_pos ht] at e; subst e; exact Or.inl rfl
        · rw [if_neg ht] at e; subst e; right; simp [createSummary]
      generalize (if (stateInfoGet r key).truthy then r else createSummary r key row) = r0 at h hr1
      have hk0 := hr1 r0 rfl
      have hfin : r1.stateInfo.map Prod.fst = r0.stateInfo.map Prod.fst := by
        simp only [] at h
        split at h
        · exact absurd h (by simp)
        · rename_i r2 hpush
          have hk2 : r2.stateInfo.map Prod.fst = r0.stateInfo.map Prod.fst := by
            by_cases hc : truthy (rowCity r0 row) = true
            · rw [if_pos hc] at hpush
              exact keys_pushCity _ _ _ _ hpush
            · rw [if_neg hc] at hpush
              injection hpush with hpush
              subst hpush; rfl
          split at h
          · exact absurd h (by simp)
          · split at h
            · split at h
              · exact absurd h (by simp)
              · rename_i r3 hset
                rw [keys_setContact _ _ _ _ h, keys_setPresence _ _ _ _ hset, hk2]
            · injection h with h
              subst h
              exact hk2
      rcases hk0 with e | e
      · exact Or.inl (hfin.trans e)
      · exact Or.inr ⟨key, hstate, hkey, hfin.trans e⟩

/-! ## Rows without a state -/

theorem processRow_empty_state (r : Realm) (row : Row) (h : truthy row.state = false) :
    processRow r row = Except.ok r := by
  unfold processRow rowState
  cases hs : row.state with
  | none => rfl
  | some key =>
    have hk : key = "" := by
      rw [hs] at h
      simpa [truthy] using h
    simp [hk]

theorem runRows_filter (rows : List Row) :
    ∀ r : Realm, runRows r (rows.filter (fun row => truthy row.state)) = runRows r rows := by
  induction rows with
  | nil => intro r; rfl
  | cons row rest ih =>
    intro r
    cases h : truthy row.state
    · rw [List.filter_cons_of_neg (by simp [h])]
      simp only [runRows, processRow_empty_state r row h]
      exact ih r
    · rw [List.filter_cons_of_pos (by simp [h])]
      simp only [runRows]
      cases processRow r row with
      | error e => rfl
      | ok r1 => exact ih r1

theorem keys_runRows_nonempty (rows : List Row) :
    ∀ r r1 : Realm, runRows r rows = Except.ok r1 → "" ∉ r.stateInfo.map Prod.fst →
      "" ∉ r1.stateInfo.map Prod.fst := by
  induction rows with
  | nil =>
    intro r r1 h hne
    simp only [runRows] at h
    injection h with h
    subst h
    exact hne
  | cons row rest ih =>
    intro r r1 h hne
    simp only [runRows] at h
    cases hp : processRow r row with
    | error e => rw [hp] at h; exact absurd h (by simp)
    | ok r2 =>
      rw [hp] at h
      refine ih r2 r1 h ?_
      rcases keys_processRow r r2 row hp with e | ⟨key, _, hkey, e⟩
      · rw [e]; exact hne
      · rw [e]
        intro hmem
        rcases List.mem_append.mp hmem with h1 | h1
        · exact hne h1
        · simp at h1
          exact hkey h1.symm

/-- Claim C6.  A row whose state is empty or absent has no effect: processing
it returns the realm it was given, the loop gives the same result (the same
mapping, or the same error) as on the sequence with those rows removed, and
the empty string is never a key of the mapping. -/
theorem empty_state_rows_have_no_effect (rows : List Row) :
    (∀ row, row ∈ rows → truthy row.state = false → ∀ r, processRow r row = Except.ok r) ∧
    aggregate (rows.filter (fun row => truthy row.state)) = aggregate rows ∧
    ∀ r1, aggregate rows = Except.ok r1 → "" ∉ r1.stateInfo.map Prod.fst := by
  refine ⟨fun row _ h r => processRow_empty_state r row h, runRows_filter rows _, ?_⟩
  intro r1 h
  exact keys_runRows_nonempty rows Realm.initial r1 h (by simp [Realm.initial])

/-- Three rows, the first with an empty state and the last without a state. -/
theorem empty_state_rows_have_no_effect_witness :
    aggregate [⟨some "", some "Ghost", some "direct", some "Nobody"⟩,
        ⟨some "TX", some "Houston", some "importer", none⟩,
        ⟨none, some "Nowhere", some "direct", none⟩] =
      Except.ok ⟨[("TX", ⟨some "importer", some "", [⟨some "Houston", some "importer", none⟩]⟩)],
        none, none, [], []⟩ ∧
    aggregate [⟨some "TX", some "Houston", some "importer", none⟩] =
      aggregate [⟨some "", some "Ghost", some "direct", some "Nobody"⟩,
        ⟨some "TX", some "Houston", some "importer", none⟩,
        ⟨none, some "Nowhere", some "direct", none⟩] ∧
    "" ∉ [("TX", (⟨some "importer", some "", [⟨some "Houston", some "importer", none⟩]⟩ : Summary))].map
      Prod.fst :=
  ⟨rfl,
   (empty_state_rows_have_no_effect [⟨some "", some "Ghost", some "direct", some "Nobody"⟩,
        ⟨some "TX", some "Houston", some "importer", none⟩,
        ⟨none, some "Nowhere", some "direct", none⟩]).2.1,
   (empty_state_rows_have_no_effect [⟨some "", some "Ghost", some "direct", some "Nobody"⟩,
        ⟨some "TX", some "Houston", some "importer", none⟩,
        ⟨none, some "Nowhere", some "direct", none⟩]).2.2 _ rfl⟩

/-! ## Rows with ordinary state names -/

theorem lookupKey_append_new {α : Type} (l : List (String × α)) (key : String) (v : α)
    (h : lookupKey l key = none) : lookupKey (l ++ [(key, v)]) key = some v := by
  induction l with
  | nil => simp [lookupKey]
  | cons hd tl ih =>
    obtain ⟨k, w⟩ := hd
    by_cases hk : k = key
    · simp [lookupKey, hk] at h
    · simp only [lookupKey, hk, if_false] at h
      simp only [List.cons_append, lookupKey, hk, if_false]
      exact ih h

theorem lookupKey_append_ne {α : Type} (l : List (String × α)) (key k : String) (v : α)
    (hne : k ≠ key) : lookupKey (l ++ [(key, v)]) k = lookupKey l k := by
  induction l with
  | nil =>
    have : ¬ key = k := fun e => hne e.symm
    simp [lookupKey, this]
  | cons hd tl ih =>
    obtain ⟨k0, w⟩ := hd
    by_cases hk : k0 = k
    · simp [lookupKey, hk]
    · simp [lookupKey, hk, ih]

theorem stepSummary_clean (r : Realm) (row : Row) (sum : Summary) (hr : cleanRealm r) :
    stepSummary r row sum = stepPlain sum row := by
  obtain ⟨h1, h2⟩ := hr
  have hp : rowPresence r row = row.presence := by
    unfold rowPresence
    cases row.presence <;> simp [h1]
  have hc : rowContact r row = row.contact := by
    unfold rowContact
    cases row.contact <;> simp [h2]
  simp [stepSummary, stepPlain, hp, hc, rowCity, cityOfRow]

theorem createSummary_clean (r : Realm) (key : String) (row : Row) (hr : cleanRealm r) :
    createSummary r key row = { r with stateInfo := r.stateInfo ++ [(key, initSummary row)] } := by
  obtain ⟨h1, h2⟩ := hr
  have hp : rowPresence r row = row.presence := by
    unfold rowPresence
    cases row.presence <;> simp [h1]
  have hc : rowContact r row = row.contact := by
    unfold rowContact
    cases row.contact <;> simp [h2]
  simp [createSummary, initSummary, hp, hc]

/-- When `stateInfo[key]` is falsy the row first creates the summary and then
goes on as on a state that has one. -/
theorem processRow_create (r : Realm) (row : Row) (key : String)
    (hstate : rowState r row = some key) (hkey : key ≠ "")
    (hnone : lookupKey r.stateInfo key = none)
    (hfalsy : (stateInfoGet r key).truthy = false) :
    processRow r row = processRow (createSummary r key row) row := by
  have hown : lookupKey (createSummary r key row).stateInfo key =
      some ⟨some (orDefault (rowPresence r row) "none"),
        some (orDefault (rowContact r row) ""), []⟩ := by
    simp only [createSummary]
    exact lookupKey_append_new _ _ _ hnone
  have htruthy : (stateInfoGet (createSummary r key row) key).truthy = true := by
    rw [stateInfoGet_own _ _ _ hown]
    rfl
  have hstate2 : rowState (createSummary r key row) row = some key := hstate
  conv_lhs => unfold processRow
  conv_rhs => unfold processRow
  simp only [hstate, hstate2, hkey, if_false, hfalsy, htruthy, if_true, Bool.false_eq_true]

/-- One row with an ordinary state name, in a realm whose prototype is
untouched. -/
theorem processRow_plain (r : Realm) (row : Row) (key : String)
    (hr : cleanRealm r) (hstate : row.state = some key) (hkey : key ≠ "")
    (hplain : plainState key) :
    ∃ r1, processRow r row = Except.ok r1 ∧ cleanRealm r1 ∧
      r1.fnPresence = r.fnPresence ∧ r1.fnContact = r.fnContact ∧
      lookupKey r1.stateInfo key = foldSummary (lookupKey r.stateInfo key) [row] ∧
      (∀ k, k ≠ key → lookupKey r1.stateInfo k = lookupKey r.stateInfo k) := by
  cases hl : lookupKey r.stateInfo key with
  | some sum =>
    obtain ⟨r1, hrun, hsum, hrest, hp, hc, hfp, hfc⟩ := processRow_own r row key sum hstate hkey hl
    refine ⟨r1, hrun, ⟨hp.trans hr.1, hc.trans hr.2⟩, hfp, hfc, ?_, hrest⟩
    rw [hsum, stepSummary_clean r row sum hr]
    rfl
  | none =>
    have hfalsy : (stateInfoGet r key).truthy = false := by
      obtain ⟨hb, hproto⟩ := hplain
      simp [stateInfoGet, objGet, hl, inheritedGet, hb, hproto, hr.1, hr.2, Fetched.ofVal,
        Fetched.truthy]
    have hcreate := processRow_create r row key hstate hkey hl hfalsy
    have hcl := createSummary_clean r key row hr
    have hown : lookupKey (createSummary r key row).stateInfo key = some (initSummary row) := by
      rw [hcl]
      exact lookupKey_append_new _ _ _ hl
    have hr2 : cleanRealm (createSummary r key row) := by
      rw [hcl]; exact hr
    obtain ⟨r1, hrun, hsum, hrest, hp, hc, hfp, hfc⟩ :=
      processRow_own (createSummary r key row) row key (initSummary row) hstate hkey hown
    refine ⟨r1, hcreate.trans hrun, ⟨hp.trans hr2.1, hc.trans hr2.2⟩, ?_, ?_, ?_, ?_⟩
    · rw [hfp, hcl]
    · rw [hfc, hcl]
    · rw [hsum, stepSummary_clean _ row _ hr2]
      rfl
    · intro k hk
      rw [hrest k hk, hcl]
      exact lookupKey_append_ne _ _ _ _ hk

theorem foldSummary_nil (acc : Option Summary) : foldSummary acc [] = acc := by
  cases acc <;> rfl

theorem foldSummary_cons (acc : Option Summary) (row : Row) (rest : List Row) :
    foldSummary acc (row :: rest) = foldSummary (foldSummary acc [row]) rest := by
  cases acc <;> rfl

theorem rowsOf_cons_same (s : String) (row : Row) (rest : List Row) (h : row.state = some s) :
    rowsOf s (row :: rest) = row :: rowsOf s rest := by
  simp [rowsOf, List.filter_cons, h]

theorem rowsOf_cons_other (s : String) (row : Row) (rest : List Row) (h : row.state ≠ some s) :
    rowsOf s (row :: rest) = rowsOf s rest := by
  simp [rowsOf, List.filter_cons, h]

/-- The loop on rows with ordinary state names, from a realm whose prototype
is untouched: it never raises, it leaves the prototype and the built-in
functions alone, and under every non-empty state it leaves what the rows of
that state give on their own. -/
theorem runRows_plain (rows : List Row) :
    ∀ r : Realm, cleanRealm r → plainRows rows →
      ∃ r1, runRows r rows = Except.ok r1 ∧ cleanRealm r1 ∧
        r1.fnPresence = r.fnPresence ∧ r1.fnContact = r.fnContact ∧
        ∀ s, s ≠ "" → lookupKey r1.stateInfo s =
          foldSummary (lookupKey r.stateInfo s) (rowsOf s rows) := by
  induction rows with
  | nil =>
    intro r hr _
    exact ⟨r, rfl, hr, rfl, rfl, fun s _ => (foldSummary_nil _).symm⟩
  | cons row rest ih =>
    intro r hr hplain
    have hrest : plainRows rest := fun x hx => hplain x (List.mem_cons_of_mem _ hx)
    by_cases ht : truthy row.state = true
    · -- the row has a state
      cases hs : row.state with
      | none => rw [hs] at ht; simp [truthy] at ht
      | some key =>
        have hkey : key ≠ "" := by
          rw [hs] at ht
          simpa [truthy] using ht
        have hpk : plainState key := hplain row (List.mem_cons_self _ _) key hs
        obtain ⟨r1, hrun, hcl, hfp, hfc, hsame, hother⟩ := processRow_plain r row key hr hs hkey hpk
        obtain ⟨r2, hrun2, hcl2, hfp2, hfc2, hall⟩ := ih r1 hcl hrest
        refine ⟨r2, ?_, hcl2, hfp2.trans hfp, hfc2.trans hfc, ?_⟩
        · simp only [runRows, hrun]
          exact hrun2
        · intro s hsne
          rw [hall s hsne]
          by_cases hsk : s = key
          · subst hsk
            rw [rowsOf_cons_same s row rest hs, foldSummary_cons, hsame]
          · have hne : row.state ≠ some s := by
              rw [hs]
              intro e
              injection e with e
              exact hsk e.symm
            rw [rowsOf_cons_other s row rest hne, hother s hsk]
    · -- the row has no state
      have hf : truthy row.state = false := by
        cases h : truthy row.state
        · rfl
        · exact absurd h ht
      obtain ⟨r2, hrun2, hcl2, hfp2, hfc2, hall⟩ := ih r hr hrest
      refine ⟨r2, ?_, hcl2, hfp2, hfc2, ?_⟩
      · simp only [runRows, processRow_empty_state r row hf]
        exact hrun2
      · intro s hsne
        have hne : row.state ≠ some s := by
          intro e
          rw [e] at hf
          simp [truthy] at hf
          exact hsne hf
        rw [hall s hsne, rowsOf_cons_other s row rest hne]

/-! ## What the rows of one state give on their own -/

theorem foldSummary_some (l : List Row) :
    ∀ sum : Summary, ∃ sum1, foldSummary (some sum) l = some sum1 := by
  induction l with
  | nil => intro sum; exact ⟨sum, rfl⟩
  | cons row rest ih => intro sum; exact ih (stepPlain sum row)

theorem foldSummary_none_iff (l : List Row) : foldSummary none l = none ↔ l = [] := by
  cases l with
  | nil => simp [foldSummary]
  | cons row rest =>
    obtain ⟨sum1, h⟩ := foldSummary_some rest (stepPlain (initSummary row) row)
    simp [foldSummary, h]

theorem stepPlain_cities (sum : Summary) (row : Row) :
    (stepPlain sum row).cities = sum.cities ++ (cityRows [row]).map cityOfRow := by
  by_cases hc : truthy row.city = true <;>
    by_cases ho : overwriteCond row.presence sum.presence = true <;>
    simp [stepPlain, cityRows, hc, ho]

theorem foldSummary_cities (l : List Row) :
    ∀ sum sum1 : Summary, foldSummary (some sum) l = some sum1 →
      sum1.cities = sum.cities ++ (cityRows l).map cityOfRow := by
  induction l with
  | nil =>
    intro sum sum1 h
    simp only [foldSummary] at h
    injection h with h
    subst h
    simp [cityRows]
  | cons row rest ih =>
    intro sum sum1 h
    simp only [foldSummary] at h
    rw [ih _ _ h, stepPlain_cities]
    by_cases hc : truthy row.city = true <;> simp [cityRows, hc]

theorem rowsOf_idem (s : String) (rows : List Row) : rowsOf s (rowsOf s rows) = rowsOf s rows := by
  simp [rowsOf, List.filter_filter]

theorem plainRows_rowsOf (s : String) (rows : List Row) (h : plainRows rows) :
    plainRows (rowsOf s rows) := by
  intro row hrow k hk
  exact h row (List.mem_of_mem_filter hrow) k hk

theorem rowsOf_eq_nil_iff (s : String) (rows : List Row) :
    rowsOf s rows = [] ↔ ¬ ∃ row, row ∈ rows ∧ row.state = some s := by
  simp [rowsOf, List.filter_eq_nil_iff]

/-- The loop on rows with ordinary state names: the summary under a non-empty
state is what the rows of that state give on their own. -/
theorem aggregate_plain (rows : List Row) (hplain : plainRows rows) :
    ∃ r, aggregate rows = Except.ok r ∧ cleanRealm r ∧ r.fnPresence = [] ∧ r.fnContact = [] ∧
      ∀ s, s ≠ "" → lookupKey r.stateInfo s = foldSummary none (rowsOf s rows) := by
  obtain ⟨r, hrun, hcl, hfp, hfc, hall⟩ := runRows_plain rows Realm.initial ⟨rfl, rfl⟩ hplain
  exact ⟨r, hrun, hcl, hfp, hfc, hall⟩

/-- Independence of the states, for rows with ordinary state names: the loop
on all rows and the loop on the rows of `s` alone both finish, they leave the
same summary under `s`, and `s` is a key exactly when it has a row. -/
theorem aggregate_plain_independent (rows : List Row) (s : String)
    (hplain : plainRows rows) (hs : s ≠ "") :
    ∃ r rs, aggregate rows = Except.ok r ∧ aggregate (rowsOf s rows) = Except.ok rs ∧
      lookupKey r.stateInfo s = lookupKey rs.stateInfo s ∧
      (lookupKey r.stateInfo s ≠ none ↔ ∃ row, row ∈ rows ∧ row.state = some s) := by
  obtain ⟨r, hrun, _, _, _, hall⟩ := aggregate_plain rows hplain
  obtain ⟨rs, hruns, _, _, _, halls⟩ := aggregate_plain (rowsOf s rows) (plainRows_rowsOf s rows hplain)
  refine ⟨r, rs, hrun, hruns, ?_, ?_⟩
  · rw [hall s hs, halls s hs, rowsOf_idem]
  · rw [hall s hs, Ne, foldSummary_none_iff, rowsOf_eq_nil_iff, not_not]

/-- The cities of a state, for rows with ordinary state names: the entries of
the rows of that state that have a city, in row order, each with the fields
of its row. -/
theorem aggregate_plain_cities (rows : List Row) (s : String) (r : Realm) (sum : Summary)
    (hplain : plainRows rows) (hs : s ≠ "")
    (hrun : aggregate rows = Except.ok r) (hsum : lookupKey r.stateInfo s = some sum) :
    sum.cities = (cityRows (rowsOf s rows)).map cityOfRow ∧
    sum.cities.length = (cityRows (rowsOf s rows)).length := by
  obtain ⟨r0, hrun0, _, _, _, hall⟩ := aggregate_plain rows hplain
  rw [hrun] at hrun0
  injection hrun0 with hrun0
  subst hrun0
  have hfold := hall s hs
  rw [hsum] at hfold
  have hcities : sum.cities = (cityRows (rowsOf s rows)).map cityOfRow := by
    cases hl : rowsOf s rows with
    | nil =>
      rw [hl] at hfold
      simp [foldSummary] at hfold
    | cons row rest =>
      rw [hl] at hfold
      simp only [foldSummary] at hfold
      have h1 := foldSummary_cities rest _ _ hfold.symm
      rw [h1, stepPlain_cities]
      by_cases hc : truthy row.city = true <;> simp [cityRows, hc, initSummary]
  exact ⟨hcities, by rw [hcities, List.length_map]⟩

/-! ## The level of the recorded presence -/

theorem overwriteCond_named (p c : Val) (h : overwriteCond p c = true) :
    p = some "direct" ∨ p = some "distributor" ∨ p = some "importer" := by
  rcases presenceLevel_cases p with ⟨hp, _⟩ | ⟨hp, _⟩ | ⟨hp, _⟩ | ⟨h1, h2, h3, _⟩
  · exact Or.inl hp
  · exact Or.inr (Or.inl hp)
  · exact Or.inr (Or.inr hp)
  · simp [overwriteCond, h1, h2, h3] at h

theorem overwriteCond_level (p : Val) (c : String) (hc : c ∈ namedLevels) :
    overwriteCond p (some c) = true ↔ presenceLevel (some c) < presenceLevel p := by
  simp only [namedLevels, List.mem_cons, List.mem_singleton, List.not_mem_nil, or_false] at hc
  rcases presenceLevel_cases p with ⟨hp, lp⟩ | ⟨hp, lp⟩ | ⟨hp, lp⟩ | ⟨h1, h2, h3, lp⟩
  · subst hp; rcases hc with rfl | rfl | rfl | rfl <;> decide
  · subst hp; rcases hc with rfl | rfl | rfl | rfl <;> decide
  · subst hp; rcases hc with rfl | rfl | rfl | rfl <;> decide
  · rw [lp]
    simp [overwriteCond, h1, h2, h3]

theorem stepPlain_level (sum : Summary) (row : Row) (c : String)
    (hc : sum.presence = some c) (hcn : c ∈ namedLevels) :
    (∃ c1, c1 ∈ namedLevels ∧ (stepPlain sum row).presence = some c1) ∧
    presenceLevel (stepPlain sum row).presence =
      max (presenceLevel sum.presence) (presenceLevel row.presence) := by
  by_cases ho : overwriteCond row.presence sum.presence = true
  · have hlt : presenceLevel (some c) < presenceLevel row.presence := by
      rw [hc] at ho
      exact (overwriteCond_level _ c hcn).mp ho
    have hpres : (stepPlain sum row).presence = row.presence := by
      simp [stepPlain, ho]
    refine ⟨?_, ?_⟩
    · rcases overwriteCond_named _ _ ho with h | h | h
      · exact ⟨"direct", by decide, by rw [hpres, h]⟩
      · exact ⟨"distributor", by decide, by rw [hpres, h]⟩
      · exact ⟨"importer", by decide, by rw [hpres, h]⟩
    · rw [hpres, hc]
      omega
  · have hnlt : ¬ presenceLevel (some c) < presenceLevel row.presence := by
      rw [hc] at ho
      exact fun h => ho ((overwriteCond_level _ c hcn).mpr h)
    have hpres : (stepPlain sum row).presence = sum.presence := by
      simp [stepPlain, ho]
    refine ⟨⟨c, hcn, by rw [hpres, hc]⟩, ?_⟩
    rw [hpres, hc]
    omega

theorem foldSummary_level (l : List Row) :
    ∀ (sum sum1 : Summary) (c : String), sum.presence = some c → c ∈ namedLevels →
      foldSummary (some sum) l = some sum1 →
      presenceLevel sum1.presence = max (presenceLevel sum.presence) (maxLevel l) := by
  induction l with
  | nil =>
    intro sum sum1 c _ _ h
    simp only [foldSummary] at h
    injection h with h
    subst h
    simp [maxLevel]
  | cons row rest ih =>
    intro sum sum1 c hc hcn h
    simp only [foldSummary] at h
    obtain ⟨⟨c1, hc1n, hc1⟩, hlev⟩ := stepPlain_level sum row c hc hcn
    rw [ih _ _ c1 hc1 hc1n h, hlev]
    simp only [maxLevel]
    omega

theorem initSummary_level (row : Row) (hrec : recognized row.presence) :
    (∃ c, c ∈ namedLevels ∧ (initSummary row).presence = some c) ∧
    presenceLevel (initSummary row).presence = presenceLevel row.presence := by
  rcases hrec with h | h | ⟨n, hn, h⟩
  · rw [initSummary, h]
    exact ⟨⟨"none", by decide, rfl⟩, rfl⟩
  · rw [initSummary, h]
    exact ⟨⟨"none", by decide, rfl⟩, rfl⟩
  · simp only [namedLevels, List.mem_cons, List.mem_singleton, List.not_mem_nil, or_false] at hn
    rcases hn with rfl | rfl | rfl | rfl <;> rw [initSummary, h]
    · exact ⟨⟨"none", by decide, rfl⟩, rfl⟩
    · exact ⟨⟨"importer", by decide, rfl⟩, rfl⟩
    · exact ⟨⟨"distributor", by decide, rfl⟩, rfl⟩
    · exact ⟨⟨"direct", by decide, rfl⟩, rfl⟩

/-- The level of the recorded presence, for rows with ordinary state names
and a first row of the state whose presence is absent, empty or one of the
four names: it is the highest level among the rows of the state. -/
theorem aggregate_plain_presence_level (rows : List Row) (s : String) (r : Realm) (sum : Summary)
    (hplain : plainRows rows) (hs : s ≠ "")
    (hfirst : ∀ row0, (rowsOf s rows).head? = some row0 → recognized row0.presence)
    (hrun : aggregate rows = Except.ok r) (hsum : lookupKey r.stateInfo s = some sum) :
    presenceLevel sum.presence = maxLevel (rowsOf s rows) := by
  obtain ⟨r0, hrun0, _, _, _, hall⟩ := aggregate_plain rows hplain
  rw [hrun] at hrun0
  injection hrun0 with hrun0
  subst hrun0
  have hfold := hall s hs
  rw [hsum] at hfold
  cases hl : rowsOf s rows with
  | nil =>
    rw [hl] at hfold
    simp [foldSummary] at hfold
  | cons row rest =>
    rw [hl] at hfold hfirst
    simp only [foldSummary] at hfold
    obtain ⟨⟨c, hcn, hc⟩, hlev0⟩ := initSummary_level row (hfirst row rfl)
    obtain ⟨⟨c1, hc1n, hc1⟩, hlev1⟩ := stepPlain_level (initSummary row) row c hc hcn
    rw [foldSummary_level rest _ _ c1 hc1 hc1n hfold.symm, hlev1, hlev0]
    simp only [maxLevel]
    omega

/-! ## The recorded contact -/

theorem overwriteCond_orDefault (p : Val) :
    overwriteCond p (some (orDefault p "none")) = false := by
  rcases presenceLevel_cases p with ⟨hp, _⟩ | ⟨hp, _⟩ | ⟨hp, _⟩ | ⟨h1, h2, h3, _⟩
  · subst hp; decide
  · subst hp; decide
  · subst hp; decide
  · simp [overwriteCond, h1, h2, h3]

theorem presenceLevel_orDefault (p : Val) :
    presenceLevel (some (orDefault p "none")) = presenceLevel p := by
  cases p with
  | none => rfl
  | some s =>
    by_cases h : s = ""
    · subst h; rfl
    · simp [orDefault, h]

/-- After a row has replaced the presence, no earlier row that did not pass
the condition before would pass it now. -/
theorem overwriteCond_after (q p c : Val) (hq : overwriteCond q c = false)
    (hp : overwriteCond p c = true) : overwriteCond q p = false := by
  rcases overwriteCond_named p c hp with h | h | h <;> subst h
  · rcases presenceLevel_cases q with ⟨e, _⟩ | ⟨e, _⟩ | ⟨e, _⟩ | ⟨h1, h2, h3, _⟩
    · subst e; decide
    · subst e; decide
    · subst e; decide
    · simp [overwriteCond, h1, h2, h3]
  · rcases presenceLevel_cases q with ⟨e, _⟩ | ⟨e, _⟩ | ⟨e, _⟩ | ⟨h1, h2, h3, _⟩
    · subst e
      simp [overwriteCond] at hq hp
      rcases hp with hp | hp <;> simp [hp] at hq
    · subst e; decide
    · subst e; decide
    · simp [overwriteCond, h1, h2, h3]
  · rcases presenceLevel_cases q with ⟨e, _⟩ | ⟨e, _⟩ | ⟨e, _⟩ | ⟨h1, h2, h3, _⟩
    · subst e
      simp [overwriteCond] at hq hp
      simp [hp] at hq
    · subst e
      simp [overwriteCond] at hq hp
      simp [hp] at hq
    · subst e; decide
    · simp [overwriteCond, h1, h2, h3]

/-- Two rows of the same level, when one of them passes the condition, carry
the same presence string. -/
theorem presence_eq_of_level (q p c : Val) (hp : overwriteCond p c = true)
    (hl : presenceLevel q = presenceLevel p) : q = p := by
  rcases overwriteCond_named p c hp with h | h | h <;> subst h <;>
    rcases presenceLevel_cases q with ⟨e, l⟩ | ⟨e, l⟩ | ⟨e, l⟩ | ⟨_, _, _, l⟩ <;>
    first
      | exact e
      | (rw [l] at hl; exact absurd hl (by decide))

theorem contactInv_init (row : Row) : contactInv [row] (stepPlain (initSummary row) row) := by
  have hno : overwriteCond row.presence (some (orDefault row.presence "none")) = false :=
    overwriteCond_orDefault row.presence
  have hpres : (stepPlain (initSummary row) row).presence = some (orDefault row.presence "none") := by
    simp [stepPlain, hno, initSummary]
  have hcont : (stepPlain (initSummary row) row).contact = some (orDefault row.contact "") := by
    simp [stepPlain, hno, initSummary]
  refine ⟨?_, row, ?_, ?_⟩
  · intro x hx
    simp only [List.mem_singleton] at hx
    subst hx
    rw [hpres]
    exact overwriteCond_orDefault _
  · rw [hpres, presenceLevel_orDefault]
    simp [firstAtLevel]
  · rw [hcont]
    cases hc : row.contact with
    | none => rfl
    | some t =>
      by_cases ht : t = ""
      · subst ht; rfl
      · simp [orDefault, ht]

theorem contactInv_step (seen : List Row) (sum : Summary) (row : Row)
    (hinv : contactInv seen sum) : contactInv (seen ++ [row]) (stepPlain sum row) := by
  obtain ⟨hno, row0, hfirst, hcontact⟩ := hinv
  by_cases ho : overwriteCond row.presence sum.presence = true
  · have hpres : (stepPlain sum row).presence = row.presence := by simp [stepPlain, ho]
    have hcont : (stepPlain sum row).contact = row.contact := by simp [stepPlain, ho]
    refine ⟨?_, row, ?_, by rw [hcont]⟩
    · intro x hx
      rw [hpres]
      rcases List.mem_append.mp hx with h | h
      · exact overwriteCond_after _ _ _ (hno x h) ho
      · simp only [List.mem_singleton] at h
        subst h
        rcases overwriteCond_named _ _ ho with e | e | e <;> rw [e] <;> decide
    · rw [hpres]
      have hnone : seen.find? (fun x => presenceLevel x.presence == presenceLevel row.presence) = none := by
        rw [List.find?_eq_none]
        intro x hx hlevel
        have hl : presenceLevel x.presence = presenceLevel row.presence := by simpa using hlevel
        have hxe := presence_eq_of_level _ _ _ ho hl
        have hx2 := hno x hx
        rw [hxe, ho] at hx2
        exact absurd hx2 (by simp)
      simp [firstAtLevel, List.find?_append, hnone]
  · have hof : overwriteCond row.presence sum.presence = false := by
      cases h : overwriteCond row.presence sum.presence
      · rfl
      · exact absurd h ho
    have hpres : (stepPlain sum row).presence = sum.presence := by simp [stepPlain, hof]
    have hcont : (stepPlain sum row).contact = sum.contact := by simp [stepPlain, hof]
    refine ⟨?_, row0, ?_, by rw [hcont]; exact hcontact⟩
    · intro x hx
      rw [hpres]
      rcases List.mem_append.mp hx with h | h
      · exact hno x h
      · simp only [List.mem_singleton] at h
        subst h
        exact hof
    · rw [hpres]
      simp only [firstAtLevel] at hfirst ⊢
      simp [List.find?_append, hfirst]

theorem foldSummary_contactInv (l : List Row) :
    ∀ (seen : List Row) (sum sum1 : Summary), contactInv seen sum →
      foldSummary (some sum) l = some sum1 → contactInv (seen ++ l) sum1 := by
  induction l with
  | nil =>
    intro seen sum sum1 hinv h
    simp only [foldSummary] at h
    injection h with h
    subst h
    simpa using hinv
  | cons row rest ih =>
    intro seen sum sum1 hinv h
    simp only [foldSummary] at h
    have := ih (seen ++ [row]) _ _ (contactInv_step seen sum row hinv) h
    simpa using this

/-- The recorded contact, for rows with ordinary state names: it is the
contact (absent counted as the empty string) of the first row of the state
whose presence has the level of the recorded presence. -/
theorem aggregate_plain_contact (rows : List Row) (s : String) (r : Realm) (sum : Summary)
    (hplain : plainRows rows) (hs : s ≠ "")
    (hrun : aggregate rows = Except.ok r) (hsum : lookupKey r.stateInfo s = some sum) :
    ∃ row0, firstAtLevel (presenceLevel sum.presence) (rowsOf s rows) = some row0 ∧
      orDefault row0.contact "" = orDefault sum.contact "" := by
  obtain ⟨r0, hrun0, _, _, _, hall⟩ := aggregate_plain rows hplain
  rw [hrun] at hrun0
  injection hrun0 with hrun0
  subst hrun0
  have hfold := hall s hs
  rw [hsum] at hfold
  cases hl : rowsOf s rows with
  | nil =>
    rw [hl] at hfold
    simp [foldSummary] at hfold
  | cons row rest =>
    rw [hl] at hfold
    simp only [foldSummary] at hfold
    exact (foldSummary_contactInv rest [row] _ _ (contactInv_init row) hfold.symm).2

/-! ## When the loop raises -/

theorem inheritedGet_cases (r : Realm) (key : String) :
    (inheritedGet r key : Fetched Summary) = Fetched.undefined ∨
    (inheritedGet r key : Fetched Summary) = Fetched.builtinFn key ∨
    ((inheritedGet r key : Fetched Summary) = Fetched.objectProto ∧
      key ∉ builtinFnNames ∧ key = "__proto__") ∨
    ∃ t, (inheritedGet r key : Fetched Summary) = Fetched.str t := by
  unfold inheritedGet
  by_cases h1 : key ∈ builtinFnNames
  · rw [if_pos h1]
    exact Or.inr (Or.inl rfl)
  · rw [if_neg h1]
    by_cases h2 : key = "__proto__"
    · rw [if_pos h2]
      exact Or.inr (Or.inr (Or.inl ⟨rfl, h1, h2⟩))
    · rw [if_neg h2]
      by_cases h3 : key = "presence"
      · rw [if_pos h3]
        cases r.protoPresence with
        | none => exact Or.inl rfl
        | some t => exact Or.inr (Or.inr (Or.inr ⟨t, rfl⟩))
      · rw [if_neg h3]
        by_cases h4 : key = "contact"
        · rw [if_pos h4]
          cases r.protoContact with
          | none => exact Or.inl rfl
          | some t => exact Or.inr (Or.inr (Or.inr ⟨t, rfl⟩))
        · rw [if_neg h4]
          exact Or.inl rfl

/-- What `stateInfo[key]` is when `key` is not an own key. -/
theorem stateInfoGet_cases (r : Realm) (key : String) :
    (∃ sum, lookupKey r.stateInfo key = some sum ∧ stateInfoGet r key = Fetched.own sum) ∨
    (lookupKey r.stateInfo key = none ∧
      (stateInfoGet r key = Fetched.undefined ∨
       stateInfoGet r key = Fetched.builtinFn key ∨
       (stateInfoGet r key = Fetched.objectProto ∧ key ∉ builtinFnNames ∧ key = "__proto__") ∨
       ∃ t, stateInfoGet r key = Fetched.str t)) := by
  cases hl : lookupKey r.stateInfo key with
  | some sum => exact Or.inl ⟨sum, rfl, by simp [stateInfoGet, objGet, hl]⟩
  | none =>
    have hget : stateInfoGet r key = inheritedGet r key := by
      simp [stateInfoGet, objGet, hl]
    rw [hget]
    exact Or.inr ⟨rfl, inheritedGet_cases r key⟩

theorem getPresence_ok (r : Realm) (key : String) (h : stateInfoGet r key ≠ Fetched.undefined) :
    ∃ v, getPresence r key = Except.ok v := by
  unfold getPresence
  cases hget : stateInfoGet r key with
  | undefined => exact absurd hget h
  | own sum => exact ⟨_, rfl⟩
  | builtinFn name =>
    cases hl : lookupKey r.fnPresence name with
    | none => exact ⟨r.protoPresence, by simp [hl]⟩
    | some v => exact ⟨v, by simp [hl]⟩
  | objectProto => exact ⟨_, rfl⟩
  | str t => exact ⟨_, rfl⟩

theorem setPresence_ok (r : Realm) (key : String) (v : Val)
    (h : stateInfoGet r key ≠ Fetched.undefined) :
    ∃ r3, setPresence r key v = Except.ok r3 ∧ stateInfoGet r3 key ≠ Fetched.undefined := by
  rcases stateInfoGet_cases r key with ⟨sum, hl, hget⟩ | ⟨hl, hu | hb | ⟨ho, hnb, hk⟩ | ⟨t, hstr⟩⟩
  · refine ⟨_, setPresence_own r key sum v hl, ?_⟩
    have hl2 : lookupKey (updateKey (fun s => { s with presence := v }) key r.stateInfo) key =
        some { sum with presence := v } := by
      rw [lookupKey_updateKey_same, hl]
      rfl
    rw [stateInfoGet_own _ key _ hl2]
    simp
  · exact absurd hu h
  · refine ⟨{ r with fnPresence := assignKey key v r.fnPresence }, by simp [setPresence, hb], ?_⟩
    have : stateInfoGet { r with fnPresence := assignKey key v r.fnPresence } key =
        stateInfoGet r key := rfl
    rw [this]
    exact h
  · refine ⟨{ r with protoPresence := v }, by simp [setPresence, ho], ?_⟩
    have : stateInfoGet { r with protoPresence := v } key = Fetched.objectProto := by
      have hl2 : lookupKey ({ r with protoPresence := v } : Realm).stateInfo key = none := hl
      simp only [stateInfoGet, objGet, hl2, inheritedGet]
      rw [if_neg hnb, if_pos hk]
    rw [this]
    simp
  · exact ⟨r, by simp [setPresence, hstr], h⟩

theorem setContact_ok (r : Realm) (key : String) (v : Val)
    (h : stateInfoGet r key ≠ Fetched.undefined) :
    ∃ r4, setContact r key v = Except.ok r4 := by
  unfold setContact
  cases hget : stateInfoGet r key with
  | undefined => exact absurd hget h
  | own sum => exact ⟨_, rfl⟩
  | builtinFn name => exact ⟨_, rfl⟩
  | objectProto => exact ⟨_, rfl⟩
  | str t => exact ⟨_, rfl⟩

/-- One row raises exactly when it has a city and its non-empty state is not
an own key of `stateInfo` but is answered, with a truthy value, by
`Object.prototype`.  In particular the reads and assignments of lines 41 to
48 never raise. -/
theorem processRow_error_iff (r : Realm) (row : Row) (e : JSError) :
    processRow r row = Except.error e ↔
      ∃ key, row.state = some key ∧ key ≠ "" ∧ truthy row.city = true ∧
        lookupKey r.stateInfo key = none ∧
        (inheritedGet r key : Fetched Summary).truthy = true := by
  cases e
  constructor
  · intro h
    cases hs : row.state with
    | none => simp [processRow, rowState, hs] at h
    | some key =>
      by_cases hkey : key = ""
      · simp [processRow, rowState, hs, hkey] at h
      · cases hl : lookupKey r.stateInfo key with
        | some sum =>
          obtain ⟨r1, hrun, _⟩ := processRow_own r row key sum hs hkey hl
          rw [hrun] at h
          exact absurd h (by simp)
        | none =>
          have hget : stateInfoGet r key = inheritedGet r key := by
            simp [stateInfoGet, objGet, hl]
          by_cases ht : (stateInfoGet r key).truthy = true
          · refine ⟨key, rfl, hkey, ?_, hl, by rw [← hget]; exact ht⟩
            by_contra hcity
            have hcf : truthy (rowCity r row) = false := by
              cases hc : truthy (rowCity r row)
              · rfl
              · exact absurd hc hcity
            have hne : stateInfoGet r key ≠ Fetched.undefined := by
              intro hu
              rw [hu] at ht
              simp [Fetched.truthy] at ht
            obtain ⟨cur, hcur⟩ := getPresence_ok r key hne
            obtain ⟨r3, hset, hne3⟩ := setPresence_ok r key (rowPresence r row) hne
            obtain ⟨r4, hset4⟩ := setContact_ok r3 key (rowContact r3 row) hne3
            unfold processRow at h
            simp only [rowState, hs, hkey, if_false, ht, if_true, hcf, Bool.false_eq_true,
              hcur, hset, hset4] at h
            split at h <;> exact absurd h (by simp)
          · have hf : (stateInfoGet r key).truthy = false := by
              cases hc : (stateInfoGet r key).truthy
              · rfl
              · exact absurd hc ht
            rw [processRow_create r row key hs hkey hl hf] at h
            have hown : lookupKey (createSummary r key row).stateInfo key =
                some ⟨some (orDefault (rowPresence r row) "none"),
                  some (orDefault (rowContact r row) ""), []⟩ := by
              simp only [createSummary]
              exact lookupKey_append_new _ _ _ hl
            obtain ⟨r1, hrun, _⟩ := processRow_own (createSummary r key row) row key _ hs hkey hown
            rw [hrun] at h
            exact absurd h (by simp)
  · rintro ⟨key, hs, hkey, hcity, hl, ht⟩
    have hget : stateInfoGet r key = inheritedGet r key := by
      simp [stateInfoGet, objGet, hl]
    have hpush : ∀ c, pushCity r key c = Except.error JSError.typeError := by
      intro c
      unfold pushCity
      rw [hget]
      rcases inheritedGet_cases r key with hu | hb | ⟨ho, _⟩ | ⟨t, hstr⟩
      · rw [hu]
      · rw [hb]
      · rw [ho]
      · rw [hstr]
    unfold processRow
    simp only [rowState, hs, hkey, if_false, hget, ht, if_true, rowCity, hcity, hpush]

/-! ## The coordinate table -/

/-- The nine pairs of the table give their coordinates, in every realm and
with every host. -/
theorem cityLatLon_table (r : Realm) (host : Host) :
    cityLatLon r host "California" "Los Angeles" = Except.ok (JSValue.coords 340522 (-1182437)) ∧
    cityLatLon r host "California" "San Diego" = Except.ok (JSValue.coords 327157 (-1171611)) ∧
    cityLatLon r host "California" "San Francisco" = Except.ok (JSValue.coords 377749 (-1224194)) ∧
    cityLatLon r host "New York" "New York" = Except.ok (JSValue.coords 407128 (-740060)) ∧
    cityLatLon r host "New York" "Buffalo" = Except.ok (JSValue.coords 428864 (-788784)) ∧
    cityLatLon r host "New York" "Rochester" = Except.ok (JSValue.coords 431566 (-776088)) ∧
    cityLatLon r host "Texas" "Houston" = Except.ok (JSValue.coords 297604 (-953698)) ∧
    cityLatLon r host "Texas" "San Antonio" = Except.ok (JSValue.coords 294241 (-984936)) ∧
    cityLatLon r host "Texas" "Dallas" = Except.ok (JSValue.coords 327767 (-967970)) :=
  ⟨rfl, rfl, rfl, rfl, rfl, rfl, rfl, rfl, rfl⟩

theorem inheritedGet_plain {α : Type} (r : Realm) (key : String) (hr : cleanRealm r)
    (hk : plainState key) : (inheritedGet r key : Fetched α) = Fetched.undefined := by
  obtain ⟨h1, h2⟩ := hk
  simp [inheritedGet, h1, h2, hr.1, hr.2, Fetched.ofVal]

/-- A pair outside the table gives null when neither name is one that
`Object.prototype` answers for and the prototype is untouched. -/
theorem cityLatLon_not_found (r : Realm) (host : Host) (state city : String)
    (hr : cleanRealm r) (hs : plainState state) (hc : plainState city)
    (hnot : (state, city) ∉ tablePairs) :
    cityLatLon r host state city = Except.ok JSValue.null := by
  have hcity : ∀ table : List (String × Int × Int), lookupKey table city = none →
      objGet table r city = Fetched.undefined := by
    intro table hl
    simp [objGet, hl, inheritedGet_plain r city hr hc]
  simp only [tablePairs, List.mem_cons, List.mem_singleton, List.not_mem_nil, or_false,
    Prod.mk.injEq, not_or, not_and] at hnot
  obtain ⟨n1, n2, n3, n4, n5, n6, n7, n8, n9⟩ := hnot
  by_cases h1 : state = "California"
  · subst h1
    have hl : lookupKey [("Los Angeles", ((340522 : Int), (-1182437 : Int))),
        ("San Diego", (327157, -1171611)), ("San Francisco", (377749, -1224194))] city = none := by
      have a1 : ¬ "Los Angeles" = city := fun e => n1 rfl e.symm
      have a2 : ¬ "San Diego" = city := fun e => n2 rfl e.symm
      have a3 : ¬ "San Francisco" = city := fun e => n3 rfl e.symm
      simp [lookupKey, a1, a2, a3]
    have hg := hcity _ hl
    simp only [cityLatLon, objGet, lookup, lookupKey, if_true] at hg ⊢
    rw [hg]
  · by_cases h2 : state = "New York"
    · subst h2
      have hl : lookupKey [("New York", ((407128 : Int), (-740060 : Int))),
          ("Buffalo", (428864, -788784)), ("Rochester", (431566, -776088))] city = none := by
        have a1 : ¬ "New York" = city := fun e => n4 rfl e.symm
        have a2 : ¬ "Buffalo" = city := fun e => n5 rfl e.symm
        have a3 : ¬ "Rochester" = city := fun e => n6 rfl e.symm
        simp [lookupKey, a1, a2, a3]
      have hg := hcity _ hl
      have e0 : ¬ "California" = "New York" := by decide
      simp only [cityLatLon, objGet, lookup, lookupKey, if_true, e0, if_false] at hg ⊢
      rw [hg]
    · by_cases h3 : state = "Texas"
      · subst h3
        have hl : lookupKey [("Houston", ((297604 : Int), (-953698 : Int))),
            ("San Antonio", (294241, -984936)), ("Dallas", (327767, -967970))] city = none := by
          have a1 : ¬ "Houston" = city := fun e => n7 rfl e.symm
          have a2 : ¬ "San Antonio" = city := fun e => n8 rfl e.symm
          have a3 : ¬ "Dallas" = city := fun e => n9 rfl e.symm
          simp [lookupKey, a1, a2, a3]
        have hg := hcity _ hl
        have e0 : ¬ "California" = "Texas" := by decide
        have e1 : ¬ "New York" = "Texas" := by decide
        simp only [cityLatLon, objGet, lookup, lookupKey, if_true, e0, e1, if_false] at hg ⊢
        rw [hg]
      · have a1 : ¬ "California" = state := fun e => h1 e.symm
        have a2 : ¬ "New York" = state := fun e => h2 e.symm
        have a3 : ¬ "Texas" = state := fun e => h3 e.symm
        have hl : lookupKey lookup state = none := by
          simp [lookup, lookupKey, a1, a2, a3]
        simp only [cityLatLon, objGet, hl, inheritedGet_plain r state hr hs]

/-- For the state `constructor` the lookup answers with a property of the
function `Object`: with the city `name`, its name. -/
theorem cityLatLon_constructor_name (r : Realm) (host : Host)
    (hname : host.fnGet "constructor" "name" = Except.ok (JSValue.string "Object")) :
    cityLatLon r host "constructor" "name" = Except.ok (JSValue.string "Object") := by
  have hget : objGet lookup r "constructor" = Fetched.builtinFn "constructor" := rfl
  simp only [cityLatLon, hget, hname]
  rfl

/-! ## The scenarios of the specification -/

/-- The three aggregation scenarios of the specification, run by the loop. -/
theorem aggregate_scenarios :
    aggregate [⟨some "CA", some "LA", some "importer", some "Lee"⟩,
        ⟨some "CA", some "SF", some "direct", some "Sam"⟩,
        ⟨some "CA", some "SD", some "distributor", some "Dee"⟩] =
      Except.ok ⟨[("CA", ⟨some "direct", some "Sam",
        [⟨some "LA", some "importer", some "Lee"⟩, ⟨some "SF", some "direct", some "Sam"⟩,
         ⟨some "SD", some "distributor", some "Dee"⟩]⟩)], none, none, [], []⟩ ∧
    aggregate [⟨some "TX", none, some "direct", some "Acme"⟩,
        ⟨some "TX", some "Houston", some "importer", none⟩] =
      Except.ok ⟨[("TX", ⟨some "direct", some "Acme",
        [⟨some "Houston", some "importer", none⟩]⟩)], none, none, [], []⟩ ∧
    aggregate [⟨some "Nevada", none, none, none⟩] =
      Except.ok ⟨[("Nevada", ⟨some "none", some "", []⟩)], none, none, [], []⟩ :=
  ⟨rfl, rfl, rfl⟩

/-! ## Inputs on which the loop and the lookup leave the specification -/

/-- Claim C1, evaluated on the rows `[{state: X, presence: partner}, {state: X,
presence: distributor}]`: the loop keeps `partner`, of level none, although
the highest level among the rows of X is distributor. -/
theorem aggregate_keeps_unrecognized_first_presence :
    aggregate [⟨some "X", none, some "partner", none⟩, ⟨some "X", none, some "distributor", none⟩] =
      Except.ok ⟨[("X", ⟨some "partner", some "", []⟩)], none, none, [], []⟩ ∧
    presenceLevel (some "partner") = 0 ∧
    maxLevel (rowsOf "X"
      [⟨some "X", none, some "partner", none⟩, ⟨some "X", none, some "distributor", none⟩]) = 2 :=
  ⟨rfl, rfl, rfl⟩

/-- Claim C2, evaluated after the rows `[{state: __proto__, presence: direct,
contact: Evil}, {state: TX, presence: importer, contact: A}]`, which leave
Texas at importer with contact A and `presence: direct`, `contact: Evil` on
`Object.prototype`.  For the row `{state: TX}`, whose presence is absent and
so of level none, below importer, the condition of the `if` is evaluated on
the inherited `direct` and holds, and Texas becomes direct with contact Evil.
For the row `{state: TX, presence: direct}`, which is strictly higher and has
no contact, the contact recorded is `Evil`, not a value of the row. -/
theorem overwrite_fires_for_row_without_presence :
    aggregate [⟨some "__proto__", none, some "direct", some "Evil"⟩,
        ⟨some "TX", none, some "importer", some "A"⟩] =
      Except.ok ⟨[("TX", ⟨some "importer", some "A", []⟩)], some "direct", some "Evil", [], []⟩ ∧
    presenceLevel (⟨some "TX", none, none, none⟩ : Row).presence = 0 ∧
    presenceLevel (some "importer") = 1 ∧
    overwriteCond
      (rowPresence ⟨[("TX", ⟨some "importer", some "A", []⟩)], some "direct", some "Evil", [], []⟩
        ⟨some "TX", none, none, none⟩)
      (some "importer") = true ∧
    processRow ⟨[("TX", ⟨some "importer", some "A", []⟩)], some "direct", some "Evil", [], []⟩
        ⟨some "TX", none, none, none⟩ =
      Except.ok ⟨[("TX", ⟨some "direct", some "Evil", []⟩)], some "direct", some "Evil", [], []⟩ ∧
    (⟨some "TX", none, some "direct", none⟩ : Row).contact = none ∧
    processRow ⟨[("TX", ⟨some "importer", some "A", []⟩)], some "direct", some "Evil", [], []⟩
        ⟨some "TX", none, some "direct", none⟩ =
      Except.ok ⟨[("TX", ⟨some "direct", some "Evil", []⟩)], some "direct", some "Evil", [], []⟩ :=
  ⟨rfl, rfl, rfl, rfl, rfl, rfl, rfl⟩

/-- Claim C3, evaluated on the rows `[{state: __proto__, presence: direct,
contact: Evil}, {state: TX, presence: importer, contact: A}, {state: TX}]`:
the last row has no presence, so its level is none and not above importer,
yet it turns the summary of Texas from importer with contact A into direct
with contact Evil. -/
theorem lower_row_overwrites_after_prototype_write :
    aggregate [⟨some "__proto__", none, some "direct", some "Evil"⟩,
        ⟨some "TX", none, some "importer", some "A"⟩] =
      Except.ok ⟨[("TX", ⟨some "importer", some "A", []⟩)], some "direct", some "Evil", [], []⟩ ∧
    presenceLevel (⟨some "TX", none, none, none⟩ : Row).presence ≤
      presenceLevel (some "importer") ∧
    aggregate [⟨some "__proto__", none, some "direct", some "Evil"⟩,
        ⟨some "TX", none, some "importer", some "A"⟩,
        ⟨some "TX", none, none, none⟩] =
      Except.ok ⟨[("TX", ⟨some "direct", some "Evil", []⟩)], some "direct", some "Evil", [], []⟩ :=
  ⟨rfl, by decide, rfl⟩

/-- Claim C4, evaluated on the rows `[{state: __proto__, presence: direct,
contact: Evil}, {state: TX, presence: direct}]`: the first row stores its
presence and contact on `Object.prototype`, and Texas, whose only row is at
the final level direct and has no contact, is recorded with the contact
`Evil`.  On the single row `{state: toString, city: "", presence: none,
contact: A}` no summary is recorded at all. -/
theorem aggregate_contact_from_prototype :
    aggregate [⟨some "__proto__", none, some "direct", some "Evil"⟩,
        ⟨some "TX", none, some "direct", none⟩] =
      Except.ok ⟨[("TX", ⟨some "direct", some "Evil", []⟩)], some "direct", some "Evil", [], []⟩ ∧
    firstAtLevel (presenceLevel (some "direct"))
        (rowsOf "TX" [⟨some "__proto__", none, some "direct", some "Evil"⟩,
          ⟨some "TX", none, some "direct", none⟩]) =
      some ⟨some "TX", none, some "direct", none⟩ ∧
    aggregate [⟨some "toString", some "", some "none", some "A"⟩] =
      Except.ok ⟨[], none, none, [], []⟩ :=
  ⟨rfl, rfl, rfl⟩

/-- Claim C5, evaluated on the rows `[{state: __proto__, presence: direct},
{state: TX, city: Houston}]`: the Houston entry of Texas carries the presence
`direct`, which the Houston row does not have. -/
theorem aggregate_city_presence_from_prototype :
    aggregate [⟨some "__proto__", none, some "direct", none⟩,
        ⟨some "TX", some "Houston", none, none⟩] =
      Except.ok ⟨[("TX", ⟨some "direct", some "", [⟨some "Houston", some "direct", none⟩]⟩)],
        some "direct", none, [], []⟩ ∧
    (rowsOf "TX" [⟨some "__proto__", none, some "direct", none⟩,
        ⟨some "TX", some "Houston", none, none⟩]).map cityOfRow = [⟨some "Houston", none, none⟩] :=
  ⟨rfl, rfl⟩

/-- Claim C9, evaluated on the single row `{state: toString, city: x}`:
`stateInfo.toString` is the inherited built-in function, no summary is
created, and the call of `push` on its missing `cities` raises a TypeError.
The same happens for the states `constructor` and `__proto__`; and without a
city the row of `toString` is processed but leaves no summary. -/
theorem aggregate_raises_on_inherited_state :
    aggregate [⟨some "toString", some "x", none, none⟩] = Except.error JSError.typeError ∧
    aggregate [⟨some "constructor", some "x", some "direct", none⟩] =
      Except.error JSError.typeError ∧
    aggregate [⟨some "__proto__", some "x", none, some "c"⟩] = Except.error JSError.typeError ∧
    aggregate [⟨some "toString", none, none, none⟩] = Except.ok ⟨[], none, none, [], []⟩ :=
  ⟨rfl, rfl, rfl, rfl⟩

/-- Claim C10, evaluated on three inputs: a row of the state `toString` adds
no key; a row of another state can end the loop with an error, so that Texas
gets no summary at all; and a row of the state `__proto__` changes the summary
that the only Texas row gives on its own. -/
theorem aggregate_states_not_independent :
    aggregate [⟨some "toString", none, some "direct", none⟩] =
      Except.ok ⟨[], none, none, [("toString", some "direct")], [("toString", none)]⟩ ∧
    aggregate [⟨some "TX", none, none, none⟩, ⟨some "toString", some "x", none, none⟩] =
      Except.error JSError.typeError ∧
    aggregate (rowsOf "TX"
        [⟨some "TX", none, none, none⟩, ⟨some "toString", some "x", none, none⟩]) =
      Except.ok ⟨[("TX", ⟨some "none", some "", []⟩)], none, none, [], []⟩ ∧
    aggregate [⟨some "__proto__", none, some "direct", some "Evil"⟩, ⟨some "TX", none, none, none⟩] =
      Except.ok ⟨[("TX", ⟨some "direct", some "Evil", []⟩)], some "direct", some "Evil", [], []⟩ ∧
    aggregate (rowsOf "TX"
        [⟨some "__proto__", none, some "direct", some "Evil"⟩, ⟨some "TX", none, none, none⟩]) =
      Except.ok ⟨[("TX", ⟨some "none", some "", []⟩)], none, none, [], []⟩ :=
  ⟨rfl, rfl, rfl, rfl, rfl⟩

/-- Claim C8, evaluated on the pair (California, toString), which is not in
the table: the lookup finds the inherited built-in function `toString` on the
California object and returns it, not null, whatever the host.  The pair
(California, `__proto__`) gives `Object.prototype` in the same way. -/
theorem cityLatLon_returns_inherited_property (r : Realm) (host : Host) :
    cityLatLon r host "California" "toString" = Except.ok (JSValue.builtinFn "toString") ∧
    ("California", "toString") ∉ tablePairs ∧
    cityLatLon r host "California" "__proto__" = Except.ok JSValue.objectProto ∧
    ("California", "__proto__") ∉ tablePairs :=
  ⟨rfl, by decide, rfl, by decide⟩

end USAMap
